import Mathlib

/-!
Shallow embedding of the upstream log-forwarding hooks of `relex/gotils`
(`logger/priv/upstream.go`, `logger/priv/upstreamtcpunbuf.go`) and of the
endpoint-selection logic in `logger/logger.go`.

Modelling conventions:
* logrus levels are the enum `LogrusLevel`, numbered as in logrus
  (Panic = 0 … Trace = 6).
* a Go channel of `upstreamLog` is a FIFO `List UpstreamLog`
  (head = oldest), with its capacity carried alongside; a send on a full
  buffered channel blocks, which the model records as an explicit outcome.
* durations are natural numbers of milliseconds.
* the network is an oracle `Env`: the n-th dial attempt and the n-th write
  attempt each succeed or fail as the oracle dictates, and the one-shot
  `closing` channel is closed from tick `closeTime` onwards.  Every
  `select` on `closing` vs a timer consumes one tick and resolves to the
  `closing` branch exactly when `closing` is closed by then (a closed
  channel is always ready; a fresh timer is not).
* the unbounded retry loops are given fuel; `none` means the fuel ran out,
  i.e. the run did not terminate within the given number of steps.
* each state-machine step returns the list of observable events (`Ev`)
  it produced: dial attempts, write attempts with the exact bytes written,
  connection drops, waits, and drops of remaining records.
-/

namespace Gotils

/-- logrus log levels, numbered as in logrus: Panic = 0, …, Trace = 6. -/
inductive LogrusLevel
  | panicL
  | fatalL
  | errorL
  | warnL
  | infoL
  | debugL
  | traceL
deriving DecidableEq, Repr

/-- The numeric value of a logrus level (`logrus.PanicLevel = 0` etc.). -/
def LogrusLevel.toNat : LogrusLevel → Nat
  | .panicL => 0
  | .fatalL => 1
  | .errorL => 2
  | .warnL => 3
  | .infoL => 4
  | .debugL => 5
  | .traceL => 6

/-- `upstreamLog` from upstream.go: a level together with a formatted line. -/
structure UpstreamLog where
  level : LogrusLevel
  line : String
deriving DecidableEq, Repr

/-- `upstreamLogLevels` from upstream.go: the levels both hooks register for. -/
def upstreamLogLevels : List LogrusLevel :=
  [.panicL, .fatalL, .errorL, .warnL, .infoL, .debugL]

/-- `Levels()` of the buffered hook returns `upstreamLogLevels`. -/
def UpstreamTCPBufferedHook.Levels : List LogrusLevel := upstreamLogLevels

/-- `Levels()` of the unbuffered hook returns `upstreamLogLevels`. -/
def UpstreamTCPUnbufferedHook.Levels : List LogrusLevel := upstreamLogLevels

/-- logrus fires a hook for an entry exactly when the entry's level is in the
list returned by the hook's `Levels()` (logrus `LevelHooks.Fire`). -/
def logrusFiresHook (levels : List LogrusLevel) (level : LogrusLevel) : Bool :=
  levels.contains level

/-- `strings.TrimSuffix(s, "\n")`: remove one trailing newline if present
(the byte `\n` only ever encodes the newline character in UTF-8, so the
byte-suffix test of Go is the final-character test here). -/
def trimSuffixNewline (s : String) : String :=
  if s.data.getLast? = some '\n' then ⟨s.data.dropLast⟩ else s

/-- `tcpFlushInterval = 100 * time.Millisecond`. -/
def tcpFlushIntervalMs : Nat := 100

/-- `tcpBufferedTimeout = 10 * time.Second` (dial timeout and write deadline). -/
def tcpBufferedTimeoutMs : Nat := 10000

/-- `tcpBufferedExitTimeout = 3 * time.Second`. -/
def tcpBufferedExitTimeoutMs : Nat := 3000

/-- `tcpBufferedPanicTimeout = 1 * time.Second`. -/
def tcpBufferedPanicTimeoutMs : Nat := 1000

/-- `tcpUnbufferedTimeout = 1 * time.Second` (unbuffered dial timeout). -/
def tcpUnbufferedTimeoutMs : Nat := 1000

/-- The capacity of the buffered hook's log channel:
`make(chan upstreamLog, 100000)` in `NewUpstreamTCPBufferedHook`. -/
def logChannelCapacity : Nat := 100000

/-- A `select { case <-closed: case <-time.After(timeoutMs): }` wait: the
caller resumes when the `closed` signal arrives or when the timer fires,
whichever comes first.  `closedAtMs = none` means the signal never arrives. -/
def selectWaitMs (timeoutMs : Nat) (closedAtMs : Option Nat) : Nat :=
  match closedAtMs with
  | none => timeoutMs
  | some c => min c timeoutMs

/-- State of a `UpstreamTCPBufferedHook` visible to `Fire` and `onExit`:
the queued records, the channel capacity, and whether the one-shot
`closing` channel has already been closed. -/
structure BufferedHookState where
  logChannel : List UpstreamLog
  chanCap : Nat
  closing : Bool
deriving DecidableEq, Repr

/-- The state of a freshly constructed hook (`NewUpstreamTCPBufferedHook`). -/
def BufferedHookState.new : BufferedHookState :=
  { logChannel := [], chanCap := logChannelCapacity, closing := false }

/-- What a call to the buffered hook's `Fire` does, beyond updating state. -/
inductive FireOutcome
  /-- The JSON formatter failed; its error is returned to the caller. -/
  | formatError
  /-- The formatted line was empty; the record is discarded, `nil` returned. -/
  | discardedEmpty
  /-- The channel buffer is full; the send `hook.logChannel <- …` blocks. -/
  | blockedOnFullChannel
  /-- The record was enqueued and `Fire` returned `nil`. -/
  | enqueued
  /-- `close(hook.closing)` was executed on an already-closed channel:
  a Go runtime panic. -/
  | panicked
deriving DecidableEq, Repr

/-- Result of the buffered hook's `Fire`: the new state, the outcome, and,
when the Panic-level branch ran, the timeout of its bounded
closed-or-timer wait (in milliseconds). -/
structure FireResult where
  state : BufferedHookState
  outcome : FireOutcome
  waitTimeoutMs : Option Nat
deriving DecidableEq, Repr

/-- `Fire` of `UpstreamTCPBufferedHook` (upstream.go).  `formatted` is the
result of `JSONFormatter.Format(entry)` for the entry being fired, and
`level` is `entry.Level`. -/
def UpstreamTCPBufferedHook.Fire (s : BufferedHookState) (level : LogrusLevel)
    (formatted : Except Unit String) : FireResult :=
  match formatted with
  | .error _ => ⟨s, .formatError, none⟩
  | .ok data =>
    let line := trimSuffixNewline data
    if line.length = 0 then
      ⟨s, .discardedEmpty, none⟩
    else if s.chanCap ≤ s.logChannel.length then
      ⟨s, .blockedOnFullChannel, none⟩
    else
      let s1 := { s with logChannel := s.logChannel ++ [⟨level, line⟩] }
      if level.toNat ≤ LogrusLevel.panicL.toNat then
        if s1.closing then
          ⟨s1, .panicked, none⟩
        else
          ⟨{ s1 with closing := true }, .enqueued, some tcpBufferedPanicTimeoutMs⟩
      else
        ⟨s1, .enqueued, none⟩

/-- What the exit handler `onExit` does. -/
inductive ExitOutcome
  /-- `close(hook.closing)` succeeded; the handler then waits for `closed`
  or the given timeout (ms), whichever first, and returns. -/
  | returned (waitTimeoutMs : Nat)
  /-- `close(hook.closing)` ran on an already-closed channel: runtime panic. -/
  | panicked
deriving DecidableEq, Repr

/-- `onExit` of `UpstreamTCPBufferedHook`: close `closing`, then wait for
`closed` or the 3-second exit timeout. -/
def UpstreamTCPBufferedHook.onExit (s : BufferedHookState) :
    BufferedHookState × ExitOutcome :=
  if s.closing then
    (s, .panicked)
  else
    ({ s with closing := true }, .returned tcpBufferedExitTimeoutMs)

/-- `drainLogChannel`: receive from the channel until it would block,
returning the received records in channel (FIFO) order and the emptied
channel state. -/
def UpstreamTCPBufferedHook.drainLogChannel (s : BufferedHookState) :
    List UpstreamLog × BufferedHookState :=
  (s.logChannel, { s with logChannel := [] })

/-- The network and shutdown oracle under which the background task runs:
`dialOk n` tells whether the n-th dial attempt (0-indexed) succeeds,
`writeOk n` whether the n-th write succeeds, and `closeTime` is the tick
from which the `closing` channel is observed closed (`none` = never). -/
structure Env where
  dialOk : Nat → Bool
  writeOk : Nat → Bool
  closeTime : Option Nat

/-- Whether `closing` is closed at tick `t` under this oracle. -/
def Env.closedAt (env : Env) (t : Nat) : Bool :=
  match env.closeTime with
  | none => false
  | some c => c ≤ t

/-- Observable events of the background task's delivery machinery. -/
inductive Ev
  /-- One `net.DialTimeout` attempt and its result. -/
  | dial (ok : Bool)
  /-- One `upstream.Write` of the given bytes and its result. -/
  | write (bytes : String) (ok : Bool)
  /-- `hook.drop()`: the live connection is closed and set to nil. -/
  | dropConn
  /-- A `select` on `closing` vs a retry timer resolved via `closing`. -/
  | waitClosing
  /-- A `select` on `closing` vs a retry timer resolved via the timer,
  i.e. the task slept for `RetryInterval`. -/
  | waitRetry
  /-- `flushLogs` gave up and reported `dropped n remaining logs` to stderr. -/
  | dropRemaining (n : Nat)
deriving DecidableEq, Repr

/-- Mutable state threaded through the background task: whether a live
connection exists, how many dials, writes and closing-selects happened so
far (indices into the oracle). -/
structure M where
  upstream : Bool
  dials : Nat
  writes : Nat
  ticks : Nat
deriving DecidableEq, Repr

/-- The machine state of a task that has not yet dialed anything. -/
def M.start : M := { upstream := false, dials := 0, writes := 0, ticks := 0 }

/-- The retry loop inside `connect` (upstream.go), entered when
`hook.upstream == nil`: dial; on success cache the connection and return
it; on failure print a diagnostic and, if `keepRetrying`, select on
`closing` vs `time.After(RetryInterval)` — returning nil if `closing` is
closed — else return nil at once.  Returns the machine state, whether a
connection was obtained, and the events produced; `none` = out of fuel. -/
def connectLoop (env : Env) (keepRetrying : Bool) :
    Nat → M → Option (M × Bool × List Ev)
  | 0, _ => none
  | fuel + 1, m =>
    let ok := env.dialOk m.dials
    let m1 := { m with dials := m.dials + 1 }
    if ok then
      some ({ m1 with upstream := true }, true, [.dial true])
    else if keepRetrying = false then
      some (m1, false, [.dial false])
    else
      let closedNow := env.closedAt m1.ticks
      let m2 := { m1 with ticks := m1.ticks + 1 }
      if closedNow then
        some (m2, false, [.dial false, .waitClosing])
      else
        match connectLoop env keepRetrying fuel m2 with
        | none => none
        | some (m3, c, tr) => some (m3, c, .dial false :: .waitRetry :: tr)

/-- `connect` (upstream.go): reuse the cached connection when present,
otherwise run the dial-retry loop. -/
def connect (env : Env) (keepRetrying : Bool) (fuel : Nat) (m : M) :
    Option (M × Bool × List Ev) :=
  if m.upstream then some (m, true, []) else connectLoop env keepRetrying fuel m

/-- `hook.drop()` as a machine step: discard the live connection. -/
def dropStep (m : M) : M := { m with upstream := false }

/-- The inner per-record retry loop of `flushLogs` (upstream.go): connect
(giving up, dropping the `remaining` records and returning delivered=false,
when `connect` yields nil); write `line + "\n"` under a 10s deadline; on
success move on (delivered=true); on failure print a diagnostic, drop the
connection, select on `closing` vs `time.After(RetryInterval)` — setting
`retry` to false when `closing` is closed — and try the same record again.
Returns `(state, delivered, retry', events)`. -/
def flushOne (env : Env) (line : String) (remaining : Nat) :
    Nat → Bool → M → Option (M × Bool × Bool × List Ev)
  | 0, _, _ => none
  | fuel + 1, retry, m =>
    match connect env retry fuel m with
    | none => none
    | some (m1, false, tr) =>
      some (m1, false, retry, tr ++ [.dropRemaining remaining])
    | some (m1, true, tr) =>
      let ok := env.writeOk m1.writes
      let m2 := { m1 with writes := m1.writes + 1 }
      if ok then
        some (m2, true, retry, tr ++ [.write (line ++ "\n") true])
      else
        let m3 := dropStep m2
        let closedNow := env.closedAt m3.ticks
        let m4 := { m3 with ticks := m3.ticks + 1 }
        let retry1 := if closedNow then false else retry
        let trHere := tr ++ [.write (line ++ "\n") false, .dropConn,
          if closedNow then .waitClosing else .waitRetry]
        match flushOne env line remaining fuel retry1 m4 with
        | none => none
        | some (m5, d, r, tr') => some (m5, d, r, trHere ++ tr')

/-- `flushLogs` (upstream.go): deliver `logs` in list order, running the
per-record retry loop for each; stop and return `false` (records dropped)
as soon as a record's loop gives up, return `true` when every record was
delivered.  The `retry` flag threads through, as in the Go local
variable. -/
def flushLogs (env : Env) :
    List UpstreamLog → Nat → Bool → M → Option (M × Bool × List Ev)
  | [], _, _, m => some (m, true, [])
  | log :: rest, fuel, retry, m =>
    match flushOne env log.line (rest.length + 1) fuel retry m with
    | none => none
    | some (m1, false, _, tr) => some (m1, false, tr)
    | some (m1, true, retry1, tr) =>
      match flushLogs env rest fuel retry1 m1 with
      | none => none
      | some (m2, cont, tr') => some (m2, cont, tr ++ tr')

/-- The bytes successfully written upstream, in order, in a trace. -/
def delivered (tr : List Ev) : List String :=
  tr.filterMap fun e =>
    match e with
    | .write s true => some s
    | _ => none

/-- The number of dial attempts in a trace. -/
def dialCount (tr : List Ev) : Nat :=
  (tr.filter fun e =>
    match e with
    | .dial _ => true
    | _ => false).length

/-- The number of failed dial attempts in a trace. -/
def dialFailCount (tr : List Ev) : Nat :=
  (tr.filter fun e =>
    match e with
    | .dial false => true
    | _ => false).length

/-- The number of failed write attempts in a trace. -/
def writeFailCount (tr : List Ev) : Nat :=
  (tr.filter fun e =>
    match e with
    | .write _ false => true
    | _ => false).length

/-- The number of retry-interval sleeps in a trace. -/
def waitRetryCount (tr : List Ev) : Nat :=
  (tr.filter fun e =>
    match e with
    | .waitRetry => true
    | _ => false).length

/-- State of a `UpstreamTCPUnbufferedHook`: whether a connection is cached. -/
structure UnbufferedHookState where
  upstream : Bool
deriving DecidableEq, Repr

/-- `connect` of the unbuffered hook (upstreamtcpunbuf.go): reuse the cached
connection if present; otherwise a single `net.DialTimeout` with the
1-second timeout — on failure print a diagnostic and return nil.
`dialOk` is whether that single dial would succeed. -/
def UnbufferedHookState.connect (s : UnbufferedHookState) (dialOk : Bool) :
    UnbufferedHookState × Bool × List Ev :=
  if s.upstream then
    (s, true, [])
  else if dialOk then
    ({ s with upstream := true }, true, [.dial true])
  else
    (s, false, [.dial false])

/-- `send` of the unbuffered hook: connect (returning at once, record
dropped, if no connection); write `log + "\n"`; on write failure print a
diagnostic and drop the connection.  No retry in either case. -/
def UnbufferedHookState.send (s : UnbufferedHookState)
    (dialOk writeOk : Bool) (log : String) : UnbufferedHookState × List Ev :=
  match s.connect dialOk with
  | (s1, false, tr) => (s1, tr)
  | (s1, true, tr) =>
    if writeOk then
      (s1, tr ++ [.write (log ++ "\n") true])
    else
      ({ s1 with upstream := false }, tr ++ [.write (log ++ "\n") false, .dropConn])

/-- `Fire` of the unbuffered hook: format, drop empty lines, otherwise
`send`; the returned `Bool` is whether `Fire` returned an error (only ever
the formatter's error — connectivity problems are never surfaced). -/
def UpstreamTCPUnbufferedHook.Fire (s : UnbufferedHookState)
    (formatted : Except Unit String) (dialOk writeOk : Bool) :
    UnbufferedHookState × List Ev × Bool :=
  match formatted with
  | .error _ => (s, [], true)
  | .ok data =>
    let line := trimSuffixNewline data
    if line.length = 0 then
      (s, [], false)
    else
      let (s1, tr) := s.send dialOk writeOk line
      (s1, tr, false)

/-- Abstraction of a `net.IP` as used by `isLocalhost`: only its
loopback-ness is consulted (`ip.IsLoopback()`). -/
structure NetIP where
  isLoopback : Bool
deriving DecidableEq, Repr

/-- The standard-library networking functions `isLocalhost` and
`SetUpstreamEndpoint` call out to: `net.SplitHostPort` and `net.ParseIP`. -/
structure NetAPI where
  splitHostPort : String → Option (String × String)
  parseIP : String → Option NetIP

/-- `isLocalhost` (logger.go): the empty host and the literal `localhost`
count as local; otherwise the host is local exactly when it parses as an
IP literal that is a loopback address.  No DNS resolution happens. -/
def isLocalhost (net : NetAPI) (host : String) : Bool :=
  if host = "" || host = "localhost" then
    true
  else
    match net.parseIP host with
    | some ip => ip.isLoopback
    | none => false

/-- Which upstream hook `SetUpstreamEndpoint` instantiates and registers. -/
inductive HookKind
  | unbuffered
  | buffered
deriving DecidableEq, Repr

/-- `SetUpstreamEndpoint` (logger.go): split the endpoint into host and
port (a split failure is `logger.Fatal`, modelled as `none`); register the
unbuffered hook when `isLocalhost(host)`, else the buffered hook. -/
def SetUpstreamEndpoint (net : NetAPI) (endpoint : String) : Option HookKind :=
  match net.splitHostPort endpoint with
  | none => none
  | some (host, _) =>
    some (if isLocalhost net host then .unbuffered else .buffered)

/-- The number of `dropped n remaining logs` diagnostics in a trace. -/
def dropRemainingCount (tr : List Ev) : Nat :=
  (tr.filter fun e =>
    match e with
    | .dropRemaining _ => true
    | _ => false).length

/-- A trace handles write failures properly when every failed write is
immediately followed by dropping the connection and then by a wait that
ends with the shutdown signal or with the retry-interval timer. -/
inductive WriteFailsHandled : List Ev → Prop
  | nil : WriteFailsHandled []
  | failTriple (b : String) (w : Ev) (rest : List Ev) :
      w = Ev.waitClosing ∨ w = Ev.waitRetry → WriteFailsHandled rest →
      WriteFailsHandled (Ev.write b false :: Ev.dropConn :: w :: rest)
  | cons (e : Ev) (rest : List Ev) :
      (∀ b, e ≠ Ev.write b false) → WriteFailsHandled rest →
      WriteFailsHandled (e :: rest)

theorem WriteFailsHandled.append {a b : List Ev}
    (ha : WriteFailsHandled a) (hb : WriteFailsHandled b) :
    WriteFailsHandled (a ++ b) := by
  induction ha with
  | nil => simpa using hb
  | failTriple s w rest hw _ ih => exact .failTriple s w _ hw ih
  | cons e rest he _ ih => exact .cons e _ he ih

theorem WriteFailsHandled.of_no_write_fail :
    ∀ {tr : List Ev}, (∀ b, Ev.write b false ∉ tr) → WriteFailsHandled tr := by
  intro tr
  induction tr with
  | nil => intro _; exact .nil
  | cons e rest ih =>
    intro h
    refine .cons e rest (fun b hb => (h b) (hb ▸ List.mem_cons_self e rest)) (ih ?_)
    intro b hb
    exact (h b) (List.mem_cons_of_mem e hb)

theorem delivered_append (a b : List Ev) :
    delivered (a ++ b) = delivered a ++ delivered b := by
  simp [delivered, List.filterMap_append]

theorem dialCount_append (a b : List Ev) :
    dialCount (a ++ b) = dialCount a + dialCount b := by
  simp [dialCount, List.filter_append]

theorem dialFailCount_append (a b : List Ev) :
    dialFailCount (a ++ b) = dialFailCount a + dialFailCount b := by
  simp [dialFailCount, List.filter_append]

theorem writeFailCount_append (a b : List Ev) :
    writeFailCount (a ++ b) = writeFailCount a + writeFailCount b := by
  simp [writeFailCount, List.filter_append]

theorem waitRetryCount_append (a b : List Ev) :
    waitRetryCount (a ++ b) = waitRetryCount a + waitRetryCount b := by
  simp [waitRetryCount, List.filter_append]

/-- `connectLoop` only produces dial attempts and waits. -/
theorem connectLoop_events (env : Env) (kr : Bool) :
    ∀ fuel m m' c tr, connectLoop env kr fuel m = some (m', c, tr) →
      ∀ e ∈ tr, (∃ ok, e = Ev.dial ok) ∨ e = Ev.waitClosing ∨ e = Ev.waitRetry := by
  intro fuel
  induction fuel with
  | zero =>
    intro m m' c tr h
    simp [connectLoop] at h
  | succ n ih =>
    intro m m' c tr h
    simp only [connectLoop] at h
    cases hok : env.dialOk m.dials with
    | true =>
      simp only [hok, if_true] at h
      obtain ⟨-, -, htr⟩ := h
      intro e he
      simp only [List.mem_singleton] at he
      exact Or.inl ⟨true, he⟩
    | false =>
      simp only [hok, Bool.false_eq_true, if_false] at h
      cases kr with
      | false =>
        simp only [if_true] at h
        obtain ⟨-, -, htr⟩ := h
        intro e he
        simp only [List.mem_singleton] at he
        exact Or.inl ⟨false, he⟩
      | true =>
        simp only [Bool.true_eq_false, if_false] at h
        cases hcl : env.closedAt m.ticks with
        | true =>
          simp only [hcl, if_true] at h
          obtain ⟨-, -, htr⟩ := h
          intro e he
          simp only [List.mem_cons, List.mem_singleton, List.not_mem_nil,
            or_false] at he
          rcases he with he | he
          · exact Or.inl ⟨false, he⟩
          · exact Or.inr (Or.inl he)
        | false =>
          simp only [hcl, Bool.false_eq_true, if_false] at h
          cases hrec : connectLoop env true n
              { m with dials := m.dials + 1, ticks := m.ticks + 1 } with
          | none => rw [hrec] at h; exact absurd h (by simp)
          | some res =>
            obtain ⟨m3, c3, tr3⟩ := res
            rw [hrec] at h
            obtain ⟨-, -, htr⟩ := h
            intro e he
            simp only [List.mem_cons] at he
            rcases he with he | he | he
            · exact Or.inl ⟨false, he⟩
            · exact Or.inr (Or.inr he)
            · exact ih _ _ _ _ hrec e he

/-- `connect` only produces dial attempts and waits. -/
theorem connect_events (env : Env) (kr : Bool) (fuel : Nat) (m m' : M) (c : Bool)
    (tr : List Ev) (h : connect env kr fuel m = some (m', c, tr)) :
    ∀ e ∈ tr, (∃ ok, e = Ev.dial ok) ∨ e = Ev.waitClosing ∨ e = Ev.waitRetry := by
  unfold connect at h
  cases hup : m.upstream with
  | true =>
    simp only [hup, if_true] at h
    obtain ⟨-, -, htr⟩ := h
    intro e he
    simp at he
  | false =>
    simp only [hup, Bool.false_eq_true, if_false] at h
    exact connectLoop_events env kr fuel m m' c tr h

/-- `connect` performs no writes, so it delivers nothing. -/
theorem connect_delivered (env : Env) (kr : Bool) (fuel : Nat) (m m' : M)
    (c : Bool) (tr : List Ev) (h : connect env kr fuel m = some (m', c, tr)) :
    delivered tr = [] := by
  rw [delivered, List.filterMap_eq_nil_iff]
  intro e he
  rcases connect_events env kr fuel m m' c tr h e he with ⟨ok, rfl⟩ | rfl | rfl <;> rfl

/-- No write event appears in a `connect` trace. -/
theorem connect_no_write (env : Env) (kr : Bool) (fuel : Nat) (m m' : M)
    (c : Bool) (tr : List Ev) (h : connect env kr fuel m = some (m', c, tr)) :
    ∀ b ok, Ev.write b ok ∉ tr := by
  intro b ok hmem
  rcases connect_events env kr fuel m m' c tr h _ hmem with ⟨k, hk⟩ | hk | hk <;>
    simp at hk

/-- A `connect` trace contains no failed writes, hence is handled. -/
theorem connect_writeFailsHandled (env : Env) (kr : Bool) (fuel : Nat)
    (m m' : M) (c : Bool) (tr : List Ev)
    (h : connect env kr fuel m = some (m', c, tr)) : WriteFailsHandled tr :=
  WriteFailsHandled.of_no_write_fail
    (fun b => connect_no_write env kr fuel m m' c tr h b false)

/-- A `connect` trace has no failed writes to count. -/
theorem connect_writeFailCount (env : Env) (kr : Bool) (fuel : Nat) (m m' : M)
    (c : Bool) (tr : List Ev) (h : connect env kr fuel m = some (m', c, tr)) :
    writeFailCount tr = 0 := by
  rw [writeFailCount, List.length_eq_zero, List.filter_eq_nil_iff]
  intro e he
  rcases connect_events env kr fuel m m' c tr h e he with ⟨ok, rfl⟩ | rfl | rfl <;>
    simp

/-- Once `closing` is closed, the dial-retry loop makes exactly one dial
attempt and never sleeps for the retry interval. -/
theorem connectLoop_closed (env : Env) (kr : Bool)
    (hc : ∀ t, env.closedAt t = true) :
    ∀ fuel m m' c tr, connectLoop env kr fuel m = some (m', c, tr) →
      (tr = [Ev.dial true] ∧ c = true ∧ m'.upstream = true)
      ∨ (tr = [Ev.dial false] ∧ c = false ∧ m'.upstream = m.upstream)
      ∨ (tr = [Ev.dial false, Ev.waitClosing] ∧ c = false
          ∧ m'.upstream = m.upstream) := by
  intro fuel
  cases fuel with
  | zero =>
    intro m m' c tr h
    simp [connectLoop] at h
  | succ n =>
    intro m m' c tr h
    simp only [connectLoop] at h
    cases hok : env.dialOk m.dials with
    | true =>
      simp only [hok, if_true] at h
      obtain ⟨-, -, -⟩ := h
      exact Or.inl ⟨rfl, rfl, rfl⟩
    | false =>
      simp only [hok, Bool.false_eq_true, if_false] at h
      cases kr with
      | false =>
        simp only [if_true] at h
        obtain ⟨-, -, -⟩ := h
        exact Or.inr (Or.inl ⟨rfl, rfl, rfl⟩)
      | true =>
        simp only [Bool.true_eq_false, if_false, hc, if_true] at h
        obtain ⟨-, -, -⟩ := h
        exact Or.inr (Or.inr ⟨rfl, rfl, rfl⟩)

/-- Once `closing` is closed, `connect` makes at most one dial attempt,
never sleeps for the retry interval, fails at most once, and reports the
connection state faithfully. -/
theorem connect_closed (env : Env) (kr : Bool)
    (hc : ∀ t, env.closedAt t = true) (fuel : Nat) (m m' : M) (c : Bool)
    (tr : List Ev) (h : connect env kr fuel m = some (m', c, tr)) :
    waitRetryCount tr = 0
    ∧ dialFailCount tr ≤ 1
    ∧ (dialFailCount tr = 1 → c = false)
    ∧ dialCount tr ≤ (if m.upstream then 0 else 1)
    ∧ (c = true → m'.upstream = true)
    ∧ (c = false → m'.upstream = m.upstream) := by
  unfold connect at h
  cases hup : m.upstream with
  | true =>
    simp only [hup, if_true] at h
    obtain ⟨-, -, -⟩ := h
    exact ⟨rfl, by simp [dialFailCount], by simp [dialFailCount],
      by simp [dialCount], fun _ => hup, fun _ => hup⟩
  | false =>
    simp only [hup, Bool.false_eq_true, if_false] at h
    rcases connectLoop_closed env kr hc fuel m m' c tr h with
      ⟨rfl, rfl, hm⟩ | ⟨rfl, rfl, hm⟩ | ⟨rfl, rfl, hm⟩
    · exact ⟨rfl, by simp [dialFailCount], by simp [dialFailCount],
        by simp [dialCount], fun _ => hm, by simp⟩
    · exact ⟨rfl, by simp [dialFailCount], fun _ => rfl,
        by simp [dialCount], by simp, fun _ => hm.trans hup⟩
    · exact ⟨rfl, by simp [dialFailCount, waitRetryCount], fun _ => rfl,
        by simp [dialCount], by simp, fun _ => hm.trans hup⟩

/-- While `closing` stays open, the retry loop never gives up: if it
returns at all, it returns a connection. -/
theorem connectLoop_open_conn (env : Env) (hc : ∀ t, env.closedAt t = false) :
    ∀ fuel m m' c tr, connectLoop env true fuel m = some (m', c, tr) →
      c = true := by
  intro fuel
  induction fuel with
  | zero =>
    intro m m' c tr h
    simp [connectLoop] at h
  | succ n ih =>
    intro m m' c tr h
    simp only [connectLoop] at h
    cases hok : env.dialOk m.dials with
    | true =>
      simp only [hok, if_true] at h
      obtain ⟨-, -, -⟩ := h
      rfl
    | false =>
      simp only [hok, Bool.false_eq_true, if_false, Bool.true_eq_false,
        hc] at h
      cases hrec : connectLoop env true n
          { m with dials := m.dials + 1, ticks := m.ticks + 1 } with
      | none => rw [hrec] at h; exact absurd h (by simp)
      | some res =>
        obtain ⟨m3, c3, tr3⟩ := res
        rw [hrec] at h
        obtain ⟨-, -, -⟩ := h
        exact ih _ _ _ _ hrec

/-- When the retry loop reports a connection, the connection is cached. -/
theorem connectLoop_conn_upstream (env : Env) (kr : Bool) :
    ∀ fuel m m' tr, connectLoop env kr fuel m = some (m', true, tr) →
      m'.upstream = true := by
  intro fuel
  induction fuel with
  | zero =>
    intro m m' tr h
    simp [connectLoop] at h
  | succ n ih =>
    intro m m' tr h
    simp only [connectLoop] at h
    cases hok : env.dialOk m.dials with
    | true =>
      simp only [hok, if_true] at h
      obtain ⟨-, -, -⟩ := h
      rfl
    | false =>
      simp only [hok, Bool.false_eq_true, if_false] at h
      cases kr with
      | false =>
        simp only [if_true] at h
        obtain ⟨-, h, -⟩ := h
      | true =>
        simp only [Bool.true_eq_false, if_false] at h
        cases hcl : env.closedAt m.ticks with
        | true =>
          simp only [hcl, if_true] at h
          obtain ⟨-, h, -⟩ := h
        | false =>
          simp only [hcl, Bool.false_eq_true, if_false] at h
          cases hrec : connectLoop env true n
              { m with dials := m.dials + 1, ticks := m.ticks + 1 } with
          | none => rw [hrec] at h; exact absurd h (by simp)
          | some res =>
            obtain ⟨m3, c3, tr3⟩ := res
            rw [hrec] at h
            obtain ⟨-, -, -⟩ := h
            exact ih _ _ _ hrec

/-- When `connect` reports a connection, the connection is cached. -/
theorem connect_conn_upstream (env : Env) (kr : Bool) (fuel : Nat) (m m' : M)
    (tr : List Ev) (h : connect env kr fuel m = some (m', true, tr)) :
    m'.upstream = true := by
  unfold connect at h
  cases hup : m.upstream with
  | true =>
    simp only [hup, if_true] at h
    obtain ⟨-, -, -⟩ := h
    exact hup
  | false =>
    simp only [hup, Bool.false_eq_true, if_false] at h
    exact connectLoop_conn_upstream env kr fuel m m' tr h

/-- The per-record loop of `flushLogs`: everything it writes is the current
record's line terminated by a newline; it delivers the record exactly once
when it reports success and not at all when it gives up; every write
failure is followed by a connection drop and a wait; on success the
connection is live. -/
theorem flushOne_spec (env : Env) (line : String) (r : Nat) :
    ∀ fuel retry m m' d r' tr,
      flushOne env line r fuel retry m = some (m', d, r', tr) →
      delivered tr = (if d then [line ++ "\n"] else [])
      ∧ (∀ b ok, Ev.write b ok ∈ tr → b = line ++ "\n")
      ∧ WriteFailsHandled tr
      ∧ (d = true → m'.upstream = true) := by
  intro fuel
  induction fuel with
  | zero =>
    intro retry m m' d r' tr h
    simp [flushOne] at h
  | succ n ih =>
    intro retry m m' d r' tr h
    rw [flushOne] at h
    cases hcon : connect env retry n m with
    | none => rw [hcon] at h; exact absurd h (by simp)
    | some res =>
      obtain ⟨m1, c, trc⟩ := res
      simp only [hcon] at h
      cases c with
      | false =>
        obtain ⟨-, -, -, -⟩ := h
        refine ⟨?_, ?_, ?_, by simp⟩
        · rw [delivered_append, connect_delivered env retry n m _ false trc hcon]
          rfl
        · intro b ok hmem
          rcases List.mem_append.1 hmem with hmem | hmem
          · exact absurd hmem
              (connect_no_write env retry n m _ false trc hcon b ok)
          · simp at hmem
        · exact (connect_writeFailsHandled env retry n m _ false trc
            hcon).append (.cons _ _ (by simp) .nil)
      | true =>
        cases hw : env.writeOk m1.writes with
        | true =>
          simp only [hw, if_true] at h
          obtain ⟨-, -, -, -⟩ := h
          refine ⟨?_, ?_, ?_, ?_⟩
          · rw [delivered_append, connect_delivered env retry n m _ true trc hcon]
            rfl
          · intro b ok hmem
            rcases List.mem_append.1 hmem with hmem | hmem
            · exact absurd hmem
                (connect_no_write env retry n m _ true trc hcon b ok)
            · simp only [List.mem_singleton, Ev.write.injEq] at hmem
              exact hmem.1
          · exact (connect_writeFailsHandled env retry n m _ true trc
              hcon).append (.cons _ _ (by simp) .nil)
          · intro _
            exact connect_conn_upstream env retry n m m1 trc hcon
        | false =>
          simp only [hw, Bool.false_eq_true, if_false, dropStep] at h
          cases hcl : env.closedAt m1.ticks with
          | true =>
            simp only [hcl, if_true] at h
            cases hrec : flushOne env line r n false
                { upstream := false, dials := m1.dials, writes := m1.writes + 1,
                  ticks := m1.ticks + 1 } with
            | none => rw [hrec] at h; exact absurd h (by simp)
            | some res2 =>
              obtain ⟨m5, d5, r5, tr5⟩ := res2
              rw [hrec] at h
              obtain ⟨-, -, -, -⟩ := h
              obtain ⟨ih1, ih2, ih3, ih4⟩ := ih _ _ _ _ _ _ hrec
              refine ⟨?_, ?_, ?_, ih4⟩
              · rw [List.append_assoc, delivered_append,
                  connect_delivered env retry n m _ true trc hcon,
                  List.nil_append]
                rw [show ([Ev.write (line ++ "\n") false, Ev.dropConn,
                    Ev.waitClosing] ++ tr5)
                  = Ev.write (line ++ "\n") false :: Ev.dropConn ::
                    Ev.waitClosing :: tr5 from rfl]
                rw [show delivered (Ev.write (line ++ "\n") false :: Ev.dropConn ::
                    Ev.waitClosing :: tr5) = delivered tr5 from rfl, ih1]
              · intro b ok hmem
                rw [List.append_assoc] at hmem
                rcases List.mem_append.1 hmem with hmem | hmem
                · exact absurd hmem
                    (connect_no_write env retry n m _ true trc hcon b ok)
                · simp only [List.cons_append, List.nil_append,
                    List.mem_cons] at hmem
                  rcases hmem with hmem | hmem | hmem | hmem
                  · simp only [Ev.write.injEq] at hmem
                    exact hmem.1
                  · exact absurd hmem (by simp)
                  · exact absurd hmem (by simp)
                  · exact ih2 b ok hmem
              · rw [List.append_assoc]
                refine (connect_writeFailsHandled env retry n m _ true trc
                  hcon).append ?_
                exact .failTriple _ _ _ (Or.inl rfl) ih3
          | false =>
            simp only [hcl, Bool.false_eq_true, if_false] at h
            cases hrec : flushOne env line r n retry
                { upstream := false, dials := m1.dials, writes := m1.writes + 1,
                  ticks := m1.ticks + 1 } with
            | none => rw [hrec] at h; exact absurd h (by simp)
            | some res2 =>
              obtain ⟨m5, d5, r5, tr5⟩ := res2
              rw [hrec] at h
              obtain ⟨-, -, -, -⟩ := h
              obtain ⟨ih1, ih2, ih3, ih4⟩ := ih _ _ _ _ _ _ hrec
              refine ⟨?_, ?_, ?_, ih4⟩
              · rw [List.append_assoc, delivered_append,
                  connect_delivered env retry n m _ true trc hcon,
                  List.nil_append]
                rw [show delivered (([Ev.write (line ++ "\n") false, Ev.dropConn,
                    Ev.waitRetry] : List Ev) ++ tr5) = delivered tr5 from rfl, ih1]
              · intro b ok hmem
                rw [List.append_assoc] at hmem
                rcases List.mem_append.1 hmem with hmem | hmem
                · exact absurd hmem
                    (connect_no_write env retry n m _ true trc hcon b ok)
                · simp only [List.cons_append, List.nil_append,
                    List.mem_cons] at hmem
                  rcases hmem with hmem | hmem | hmem | hmem
                  · simp only [Ev.write.injEq] at hmem
                    exact hmem.1
                  · exact absurd hmem (by simp)
                  · exact absurd hmem (by simp)
                  · exact ih2 b ok hmem
              · rw [List.append_assoc]
                refine (connect_writeFailsHandled env retry n m _ true trc
                  hcon).append ?_
                exact .failTriple _ _ _ (Or.inr rfl) ih3

/-- While `closing` stays open, `connect` never gives up. -/
theorem connect_open_conn (env : Env) (hc : ∀ t, env.closedAt t = false)
    (fuel : Nat) (m m' : M) (c : Bool) (tr : List Ev)
    (h : connect env true fuel m = some (m', c, tr)) : c = true := by
  unfold connect at h
  cases hup : m.upstream with
  | true =>
    simp only [hup, if_true] at h
    obtain ⟨-, -, -⟩ := h
    rfl
  | false =>
    simp only [hup, Bool.false_eq_true, if_false] at h
    exact connectLoop_open_conn env hc fuel m m' c tr h

/-- Once `closing` is closed, the per-record loop never sleeps for the
retry interval, a failed dial ends it at once (so at most one dial fails),
and its dial attempts are bounded by its failed writes plus one. -/
theorem flushOne_closed (env : Env) (line : String) (r : Nat)
    (hc : ∀ t, env.closedAt t = true) :
    ∀ fuel retry m m' d r' tr,
      flushOne env line r fuel retry m = some (m', d, r', tr) →
      waitRetryCount tr = 0
      ∧ dialFailCount tr ≤ 1
      ∧ (dialFailCount tr = 1 → d = false)
      ∧ dialCount tr ≤ writeFailCount tr + (if m.upstream then 0 else 1)
      ∧ (d = true → m'.upstream = true) := by
  intro fuel
  induction fuel with
  | zero =>
    intro retry m m' d r' tr h
    simp [flushOne] at h
  | succ n ih =>
    intro retry m m' d r' tr h
    rw [flushOne] at h
    cases hcon : connect env retry n m with
    | none => rw [hcon] at h; exact absurd h (by simp)
    | some res =>
      obtain ⟨m1, c, trc⟩ := res
      simp only [hcon] at h
      obtain ⟨hw0, hd1, hd1c, hdc, hcu, hcu'⟩ :=
        connect_closed env retry hc n m m1 c trc hcon
      cases c with
      | false =>
        obtain ⟨-, -, -, -⟩ := h
        refine ⟨?_, ?_, fun _ => rfl, ?_, by simp⟩
        · rw [waitRetryCount_append, hw0]
          rfl
        · rw [dialFailCount_append]
          simpa [dialFailCount] using hd1
        · rw [dialCount_append, writeFailCount_append]
          have h1 : dialCount [Ev.dropRemaining r] = 0 := rfl
          have h2 : writeFailCount trc = 0 :=
            connect_writeFailCount env retry n m _ false trc hcon
          omega
      | true =>
        have hdf0 : dialFailCount trc = 0 := by
          rcases Nat.le_one_iff_eq_zero_or_eq_one.1 hd1 with h0 | h1
          · exact h0
          · exact absurd (hd1c h1) (by simp)
        cases hw : env.writeOk m1.writes with
        | true =>
          simp only [hw, if_true] at h
          obtain ⟨-, -, -, -⟩ := h
          refine ⟨?_, ?_, ?_, ?_, fun _ => hcu rfl⟩
          · rw [waitRetryCount_append, hw0]
            rfl
          · rw [dialFailCount_append, hdf0]
            simp [dialFailCount]
          · rw [dialFailCount_append, hdf0]
            intro hx
            exact absurd hx (by simp [dialFailCount])
          · rw [dialCount_append, writeFailCount_append]
            have h1 : dialCount [Ev.write (line ++ "\n") true] = 0 := rfl
            have h2 : writeFailCount trc = 0 :=
              connect_writeFailCount env retry n m _ true trc hcon
            omega
        | false =>
          simp only [hw, Bool.false_eq_true, if_false, dropStep, hc,
            if_true] at h
          cases hrec : flushOne env line r n false
              { upstream := false, dials := m1.dials, writes := m1.writes + 1,
                ticks := m1.ticks + 1 } with
          | none => rw [hrec] at h; exact absurd h (by simp)
          | some res2 =>
            obtain ⟨m5, d5, r5, tr5⟩ := res2
            rw [hrec] at h
            obtain ⟨-, -, -, -⟩ := h
            obtain ⟨ih1, ih2, ih3, ih4, ih5⟩ := ih _ _ _ _ _ _ hrec
            have hmid1 : waitRetryCount [Ev.write (line ++ "\n") false,
                Ev.dropConn, Ev.waitClosing] = 0 := rfl
            have hmid2 : dialFailCount [Ev.write (line ++ "\n") false,
                Ev.dropConn, Ev.waitClosing] = 0 := rfl
            have hmid3 : dialCount [Ev.write (line ++ "\n") false,
                Ev.dropConn, Ev.waitClosing] = 0 := rfl
            have hmid4 : writeFailCount [Ev.write (line ++ "\n") false,
                Ev.dropConn, Ev.waitClosing] = 1 := rfl
            have hwf0 : writeFailCount trc = 0 :=
              connect_writeFailCount env retry n m _ true trc hcon
            refine ⟨?_, ?_, ?_, ?_, ih5⟩
            · rw [List.append_assoc, waitRetryCount_append, hw0,
                waitRetryCount_append, hmid1, ih1]
            · rw [List.append_assoc, dialFailCount_append, hdf0,
                dialFailCount_append, hmid2]
              omega
            · rw [List.append_assoc, dialFailCount_append, hdf0,
                dialFailCount_append, hmid2]
              intro hx
              exact ih3 (by omega)
            · rw [List.append_assoc, dialCount_append,
                dialCount_append, hmid3, writeFailCount_append, hwf0,
                writeFailCount_append, hmid4]
              have hup4 : dialCount tr5 ≤ writeFailCount tr5 + 1 := by
                simpa using ih4
              have : dialCount trc ≤ (if m.upstream then 0 else 1) := hdc
              omega

/-- While `closing` stays open and every write fails, the per-record loop
never returns: the hook retries the record forever. -/
theorem flushOne_open_failwrites (env : Env) (line : String) (r : Nat)
    (hw : ∀ n, env.writeOk n = false) (hc : ∀ t, env.closedAt t = false) :
    ∀ fuel m, flushOne env line r fuel true m = none := by
  intro fuel
  induction fuel with
  | zero =>
    intro m
    rfl
  | succ n ih =>
    intro m
    rw [flushOne]
    cases hcon : connect env true n m with
    | none => simp [hcon]
    | some res =>
      obtain ⟨m1, c, trc⟩ := res
      cases c with
      | false =>
        exact absurd (connect_open_conn env hc n m m1 false trc hcon) (by simp)
      | true =>
        simp only [hcon, hw, Bool.false_eq_true, if_false, dropStep, hc]
        rw [ih]

/-- `flushLogs` delivers a prefix of its list in order (all of it when it
reports success), writes only newline-terminated lines of submitted
records, and handles every write failure by dropping the connection and
waiting. -/
theorem flushLogs_spec (env : Env) :
    ∀ logs fuel retry m m' cont tr,
      flushLogs env logs fuel retry m = some (m', cont, tr) →
      (∃ k, k ≤ logs.length
        ∧ delivered tr = (logs.take k).map (fun l => l.line ++ "\n")
        ∧ (cont = true → k = logs.length))
      ∧ (∀ b ok, Ev.write b ok ∈ tr → ∃ l ∈ logs, b = l.line ++ "\n")
      ∧ WriteFailsHandled tr := by
  intro logs
  induction logs with
  | nil =>
    intro fuel retry m m' cont tr h
    rw [flushLogs] at h
    obtain ⟨-, -, -⟩ := h
    exact ⟨⟨0, by simp, rfl, fun _ => rfl⟩, by simp, .nil⟩
  | cons log rest ih =>
    intro fuel retry m m' cont tr h
    rw [flushLogs] at h
    cases hone : flushOne env log.line (rest.length + 1) fuel retry m with
    | none => rw [hone] at h; exact absurd h (by simp)
    | some res =>
      obtain ⟨m1, d, r1, tr1⟩ := res
      rw [hone] at h
      cases d with
      | false =>
        obtain ⟨-, -, -⟩ := h
        obtain ⟨s1, s2, s3, -⟩ :=
          flushOne_spec env log.line _ fuel retry m _ _ _ _ hone
        refine ⟨⟨0, by simp, ?_, by simp⟩, ?_, s3⟩
        · simpa using s1
        · intro b ok hmem
          exact ⟨log, by simp, s2 b ok hmem⟩
      | true =>
        simp only [] at h
        cases hrest : flushLogs env rest fuel r1 m1 with
        | none => rw [hrest] at h; exact absurd h (by simp)
        | some res2 =>
          obtain ⟨m2, cont2, tr2⟩ := res2
          rw [hrest] at h
          obtain ⟨-, -, -⟩ := h
          obtain ⟨s1, s2, s3, -⟩ :=
            flushOne_spec env log.line _ fuel retry m _ _ _ _ hone
          obtain ⟨⟨k, hk1, hk2, hk3⟩, t2, t3⟩ := ih fuel r1 m1 _ _ _ hrest
          refine ⟨⟨k + 1, by simpa using Nat.succ_le_succ hk1, ?_, ?_⟩, ?_,
            s3.append t3⟩
          · rw [delivered_append, hk2]
            simp only [if_true] at s1
            rw [s1]
            simp [List.take_succ_cons]
          · intro hcont
            rw [hk3 hcont]
            simp
          · intro b ok hmem
            rcases List.mem_append.1 hmem with hmem | hmem
            · exact ⟨log, by simp, s2 b ok hmem⟩
            · obtain ⟨l, hl, hb⟩ := t2 b ok hmem
              exact ⟨l, by simp [hl], hb⟩

/-- Once `closing` is closed, a terminating flush pass never sleeps for
the retry interval, fails at most one dial (and then reports failure), and
dials at most once per failed write plus once. -/
theorem flushLogs_closed (env : Env) (hc : ∀ t, env.closedAt t = true) :
    ∀ logs fuel retry m m' cont tr,
      flushLogs env logs fuel retry m = some (m', cont, tr) →
      waitRetryCount tr = 0
      ∧ dialFailCount tr ≤ 1
      ∧ (dialFailCount tr = 1 → cont = false)
      ∧ dialCount tr ≤ writeFailCount tr + (if m.upstream then 0 else 1) := by
  intro logs
  induction logs with
  | nil =>
    intro fuel retry m m' cont tr h
    rw [flushLogs] at h
    obtain ⟨-, -, -⟩ := h
    exact ⟨rfl, by simp [dialFailCount], fun hx => absurd hx (by
      simp [dialFailCount]), by simp [dialCount]⟩
  | cons log rest ih =>
    intro fuel retry m m' cont tr h
    rw [flushLogs] at h
    cases hone : flushOne env log.line (rest.length + 1) fuel retry m with
    | none => rw [hone] at h; exact absurd h (by simp)
    | some res =>
      obtain ⟨m1, d, r1, tr1⟩ := res
      rw [hone] at h
      obtain ⟨o1, o2, o3, o4, o5⟩ :=
        flushOne_closed env log.line _ hc fuel retry m _ _ _ _ hone
      cases d with
      | false =>
        obtain ⟨-, -, -⟩ := h
        exact ⟨o1, o2, fun _ => rfl, o4⟩
      | true =>
        have hup1 : m1.upstream = true := o5 rfl
        have hdf1 : dialFailCount tr1 = 0 := by
          rcases Nat.le_one_iff_eq_zero_or_eq_one.1 o2 with h0 | h1
          · exact h0
          · exact absurd (o3 h1) (by simp)
        simp only [] at h
        cases hrest : flushLogs env rest fuel r1 m1 with
        | none => rw [hrest] at h; exact absurd h (by simp)
        | some res2 =>
          obtain ⟨m2, cont2, tr2⟩ := res2
          rw [hrest] at h
          obtain ⟨-, -, -⟩ := h
          obtain ⟨i1, i2, i3, i4⟩ := ih fuel r1 m1 _ _ _ hrest
          rw [hup1] at i4
          simp at i4
          refine ⟨?_, ?_, ?_, ?_⟩
          · rw [waitRetryCount_append, o1, i1]
          · rw [dialFailCount_append, hdf1]
            omega
          · rw [dialFailCount_append, hdf1]
            intro hx
            exact i3 (by omega)
          · rw [dialCount_append, writeFailCount_append]
            have : dialCount tr1 ≤ writeFailCount tr1 +
                (if m.upstream then 0 else 1) := o4
            omega

/-- While `closing` stays open and every write fails, a flush pass over a
non-empty list never terminates: the retry repeats indefinitely. -/
theorem flushLogs_open_failwrites (env : Env)
    (hw : ∀ n, env.writeOk n = false) (hc : ∀ t, env.closedAt t = false)
    (log : UpstreamLog) (rest : List UpstreamLog) (fuel : Nat) (m : M) :
    flushLogs env (log :: rest) fuel true m = none := by
  rw [flushLogs]
  rw [flushOne_open_failwrites env log.line (rest.length + 1) hw hc fuel m]

/-- `Fire` on an empty formatted line: the record is silently discarded. -/
theorem Fire_ok_empty (s : BufferedHookState) (level : LogrusLevel)
    (data : String) (h : (trimSuffixNewline data).length = 0) :
    UpstreamTCPBufferedHook.Fire s level (.ok data)
      = ⟨s, .discardedEmpty, none⟩ := by
  simp only [UpstreamTCPBufferedHook.Fire]
  rw [if_pos h]

/-- `Fire` on a full channel: the send blocks. -/
theorem Fire_ok_full (s : BufferedHookState) (level : LogrusLevel)
    (data : String) (h1 : (trimSuffixNewline data).length ≠ 0)
    (h2 : s.chanCap ≤ s.logChannel.length) :
    UpstreamTCPBufferedHook.Fire s level (.ok data)
      = ⟨s, .blockedOnFullChannel, none⟩ := by
  simp only [UpstreamTCPBufferedHook.Fire]
  rw [if_neg h1, if_pos h2]

/-- `Fire` on a non-Panic record with room in the channel: plain enqueue. -/
theorem Fire_ok_nonpanicLevel (s : BufferedHookState) (level : LogrusLevel)
    (data : String) (h1 : (trimSuffixNewline data).length ≠ 0)
    (h2 : s.logChannel.length < s.chanCap)
    (h3 : LogrusLevel.panicL.toNat < level.toNat) :
    UpstreamTCPBufferedHook.Fire s level (.ok data)
      = ⟨{ s with logChannel :=
            s.logChannel ++ [⟨level, trimSuffixNewline data⟩] },
          .enqueued, none⟩ := by
  simp only [UpstreamTCPBufferedHook.Fire]
  rw [if_neg h1, if_neg (Nat.not_le.mpr h2), if_neg (Nat.not_le.mpr h3)]

/-- `Fire` on a Panic record with `closing` still open: enqueue, close
`closing`, then wait for `closed` or the 1-second timeout. -/
theorem Fire_ok_panicLevel (s : BufferedHookState) (data : String)
    (h1 : (trimSuffixNewline data).length ≠ 0)
    (h2 : s.logChannel.length < s.chanCap) (h3 : s.closing = false) :
    UpstreamTCPBufferedHook.Fire s .panicL (.ok data)
      = ⟨{ s with
            logChannel := s.logChannel ++ [⟨.panicL, trimSuffixNewline data⟩],
            closing := true },
          .enqueued, some tcpBufferedPanicTimeoutMs⟩ := by
  simp only [UpstreamTCPBufferedHook.Fire]
  rw [if_neg h1, if_neg (Nat.not_le.mpr h2), if_pos (Nat.le_refl _),
    if_neg (by simp [h3])]

/-- `Fire` on a Panic record with `closing` already closed: the second
`close(hook.closing)` is a runtime panic. -/
theorem Fire_ok_panicLevel_closed (s : BufferedHookState) (data : String)
    (h1 : (trimSuffixNewline data).length ≠ 0)
    (h2 : s.logChannel.length < s.chanCap) (h3 : s.closing = true) :
    UpstreamTCPBufferedHook.Fire s .panicL (.ok data)
      = ⟨{ s with logChannel :=
            s.logChannel ++ [⟨.panicL, trimSuffixNewline data⟩] },
          .panicked, none⟩ := by
  simp only [UpstreamTCPBufferedHook.Fire]
  rw [if_neg h1, if_neg (Nat.not_le.mpr h2), if_pos (Nat.le_refl _),
    if_pos (by simp [h3])]

/-- All dials succeed, all writes succeed, shutdown is never signalled. -/
def envAllOk : Env := ⟨fun _ => true, fun _ => true, none⟩

/-- All dials succeed, the first two writes fail and later ones succeed;
shutdown is signalled from the very start. -/
def envShutdownFlaky : Env := ⟨fun _ => true, fun n => decide (2 ≤ n), some 0⟩

/-- All dials succeed, every write fails, shutdown is never signalled. -/
def envNeverDeliver : Env := ⟨fun _ => true, fun _ => false, none⟩

/-- The trace left by the final flush pass of `envShutdownFlaky` on the
single queued record `x`: three dials after shutdown, no drop. -/
def c2Trace : List Ev :=
  [.dial true, .write "x\n" false, .dropConn, .waitClosing,
   .dial true, .write "x\n" false, .dropConn, .waitClosing,
   .dial true, .write "x\n" true]

/-- C1: records reach upstream in exactly the submission order:
`drainLogChannel` returns the queued records in channel order; the
per-record loop of `flushLogs` only ever writes the current record's line
(retrying it before moving on); and any terminating `flushLogs` pass
delivers precisely a prefix of its list, in order — the whole list when it
reports success — never skipping ahead or reordering. -/
theorem buffered_delivery_is_fifo :
    (∀ s, (UpstreamTCPBufferedHook.drainLogChannel s).1 = s.logChannel)
    ∧ (∀ env line r fuel retry m m' d r' tr,
        flushOne env line r fuel retry m = some (m', d, r', tr) →
        ∀ b ok, Ev.write b ok ∈ tr → b = line ++ "\n")
    ∧ (∀ env logs fuel retry m m' cont tr,
        flushLogs env logs fuel retry m = some (m', cont, tr) →
        (delivered tr).length ≤ logs.length
        ∧ delivered tr
          = (logs.take (delivered tr).length).map (fun l => l.line ++ "\n")
        ∧ (cont = true →
            delivered tr = logs.map (fun l => l.line ++ "\n"))) := by
  refine ⟨fun s => rfl, ?_, ?_⟩
  · intro env line r fuel retry m m' d r' tr h
    exact (flushOne_spec env line r fuel retry m m' d r' tr h).2.1
  · intro env logs fuel retry m m' cont tr h
    obtain ⟨⟨k, hk, hd, hcont⟩, -, -⟩ :=
      flushLogs_spec env logs fuel retry m m' cont tr h
    have hlen : (delivered tr).length = k := by
      rw [hd, List.length_map, List.length_take, Nat.min_eq_left hk]
    refine ⟨?_, ?_, ?_⟩
    · rw [hlen]
      exact hk
    · rw [hlen]
      exact hd
    · intro hct
      rw [hd, hcont hct, List.take_length]

/-- C1 witness: a concrete two-record run delivers both lines in order. -/
theorem buffered_delivery_is_fifo_witness :
    (UpstreamTCPBufferedHook.drainLogChannel
        ⟨[⟨.infoL, "a"⟩, ⟨.debugL, "b"⟩], logChannelCapacity, false⟩).1
      = [⟨.infoL, "a"⟩, ⟨.debugL, "b"⟩]
    ∧ delivered [Ev.dial true, Ev.write "a\n" true, Ev.write "b\n" true]
      = ["a\n", "b\n"] := by
  refine ⟨buffered_delivery_is_fifo.1 _, ?_⟩
  have h := (buffered_delivery_is_fifo.2.2 envAllOk
    [⟨.infoL, "a"⟩, ⟨.debugL, "b"⟩] 4 true M.start ⟨true, 1, 2, 0⟩ true
    [Ev.dial true, Ev.write "a\n" true, Ev.write "b\n" true]
    (by decide)).2.2 rfl
  exact h.trans (by decide)

/-- C2 counterexample: with shutdown signalled from the start, all dials
succeeding and the first two writes failing, the final flush pass makes
three dial attempts, drops nothing, and completes — not "at most one
further dial attempt before dropping any remaining records". -/
theorem shutdown_single_dial_counterexample :
    flushLogs envShutdownFlaky [⟨.errorL, "x"⟩] 9 false M.start
      = some (⟨true, 3, 3, 2⟩, true, c2Trace)
    ∧ dialCount c2Trace = 3
    ∧ dropRemainingCount c2Trace = 0 :=
  ⟨by decide, by decide, by decide⟩

/-- C2 amended: once shutdown is signalled, a terminating flush pass never
sleeps for the retry interval; at most one dial attempt fails, and when
one does the pass reports failure (remaining records dropped, task about
to terminate); dial attempts are bounded by the number of failed writes
plus one — each extra dial is paid for by a failed write, so the only
unbounded behaviour left is a connection that keeps accepting dials and
failing writes. -/
theorem shutdown_dials_bounded :
    ∀ env logs fuel retry m m' cont tr,
      (∀ t, env.closedAt t = true) →
      flushLogs env logs fuel retry m = some (m', cont, tr) →
      waitRetryCount tr = 0
      ∧ dialFailCount tr ≤ 1
      ∧ (dialFailCount tr = 1 → cont = false)
      ∧ dialCount tr ≤ writeFailCount tr + 1 := by
  intro env logs fuel retry m m' cont tr hc h
  obtain ⟨a, b, c, d⟩ := flushLogs_closed env hc logs fuel retry m m' cont tr h
  refine ⟨a, b, c, ?_⟩
  have hle : (if m.upstream then 0 else 1) ≤ 1 := by
    cases m.upstream <;> simp
  omega

/-- C2 amended witness: the bound holds on the concrete flaky run. -/
theorem shutdown_dials_bounded_witness :
    waitRetryCount c2Trace = 0
    ∧ dialFailCount c2Trace ≤ 1
    ∧ (dialFailCount c2Trace = 1 → true = false)
    ∧ dialCount c2Trace ≤ writeFailCount c2Trace + 1 :=
  shutdown_dials_bounded envShutdownFlaky [⟨.errorL, "x"⟩] 9 false M.start
    ⟨true, 3, 3, 2⟩ true c2Trace
    (fun t => by simp [Env.closedAt, envShutdownFlaky]) (by decide)

/-- The channel contents of a hook whose buffer is full. -/
def fullChannel : List UpstreamLog :=
  List.replicate logChannelCapacity ⟨.infoL, "x"⟩

/-- C3 counterexample: with the queue at its fixed capacity of 100000,
`Fire` on a non-Panic record does not enqueue-and-return — the channel
send blocks the caller. -/
theorem fire_full_queue_blocks :
    (UpstreamTCPBufferedHook.Fire ⟨fullChannel, logChannelCapacity, false⟩
      .infoL (.ok "y\n")).outcome = .blockedOnFullChannel := by
  have h := Fire_ok_full ⟨fullChannel, logChannelCapacity, false⟩ .infoL "y\n"
    (by decide) (by simp [fullChannel])
  rw [h]

/-- C3 amended: for every non-Panic record, `Fire` enqueues the record and
returns without blocking whenever the queue holds fewer than its capacity
of records; when the queue is full, the channel send blocks the caller
until the background task frees space. -/
theorem fire_enqueues_when_not_full :
    ∀ s level data, (trimSuffixNewline data).length ≠ 0 →
      LogrusLevel.panicL.toNat < level.toNat →
      ((s.logChannel.length < s.chanCap →
        UpstreamTCPBufferedHook.Fire s level (.ok data)
          = ⟨{ s with logChannel :=
                s.logChannel ++ [⟨level, trimSuffixNewline data⟩] },
              .enqueued, none⟩)
      ∧ (s.chanCap ≤ s.logChannel.length →
        UpstreamTCPBufferedHook.Fire s level (.ok data)
          = ⟨s, .blockedOnFullChannel, none⟩)) :=
  fun s level data h1 h2 =>
    ⟨fun h3 => Fire_ok_nonpanicLevel s level data h1 h3 h2,
     fun h3 => Fire_ok_full s level data h1 h3⟩

/-- C3 amended witness: a concrete non-full enqueue returns at once. -/
theorem fire_enqueues_when_not_full_witness :
    UpstreamTCPBufferedHook.Fire BufferedHookState.new .infoL (.ok "a\n")
      = ⟨{ BufferedHookState.new with
            logChannel := BufferedHookState.new.logChannel
              ++ [⟨.infoL, trimSuffixNewline "a\n"⟩] },
          .enqueued, none⟩ :=
  (fire_enqueues_when_not_full BufferedHookState.new .infoL "a\n"
    (by decide) (by decide)).1 (by decide)

/-- C4: a Panic-level record (with a non-empty formatted line, room in the
queue, and `closing` not yet closed) is enqueued, `closing` is closed, and
the caller then blocks on `closed` or the 1-second timeout — resuming
after `min(closed-signal, 1000ms)`, so never more than one second — and
returns. -/
theorem fire_panicLevel_signals_and_waits :
    ∀ s data, (trimSuffixNewline data).length ≠ 0 →
      s.logChannel.length < s.chanCap → s.closing = false →
      UpstreamTCPBufferedHook.Fire s .panicL (.ok data)
        = ⟨{ s with
              logChannel := s.logChannel
                ++ [⟨.panicL, trimSuffixNewline data⟩],
              closing := true },
            .enqueued, some tcpBufferedPanicTimeoutMs⟩
      ∧ tcpBufferedPanicTimeoutMs = 1000
      ∧ selectWaitMs tcpBufferedPanicTimeoutMs none = 1000
      ∧ (∀ c, selectWaitMs tcpBufferedPanicTimeoutMs (some c) = min c 1000)
      ∧ (∀ closedAtMs, selectWaitMs tcpBufferedPanicTimeoutMs closedAtMs
          ≤ 1000) := by
  intro s data h1 h2 h3
  refine ⟨Fire_ok_panicLevel s data h1 h2 h3, rfl, rfl, fun c => rfl, ?_⟩
  intro closedAtMs
  cases closedAtMs with
  | none => exact Nat.le_refl _
  | some c => exact Nat.min_le_right c 1000

/-- C4 witness: the Panic path on a fresh hook. -/
theorem fire_panicLevel_signals_and_waits_witness :
    UpstreamTCPBufferedHook.Fire BufferedHookState.new .panicL (.ok "p")
      = ⟨{ BufferedHookState.new with
            logChannel := BufferedHookState.new.logChannel
              ++ [⟨.panicL, trimSuffixNewline "p"⟩],
            closing := true },
          .enqueued, some tcpBufferedPanicTimeoutMs⟩
    ∧ selectWaitMs tcpBufferedPanicTimeoutMs (some 300) = min 300 1000 :=
  ⟨(fire_panicLevel_signals_and_waits BufferedHookState.new "p"
      (by decide) (by decide) rfl).1,
   (fire_panicLevel_signals_and_waits BufferedHookState.new "p"
      (by decide) (by decide) rfl).2.2.2.1 300⟩

/-- C5 counterexample: on the Panic-triggered path — `closing` already
closed by a Panic-level `Fire` — the registered exit callback does not
wait a bounded time and return: its `close(hook.closing)` is a runtime
panic, so it never returns at all. -/
theorem exit_callback_after_panicLevel_crashes :
    (UpstreamTCPBufferedHook.onExit
      (UpstreamTCPBufferedHook.Fire BufferedHookState.new .panicL
        (.ok "p")).state).2 = .panicked := by
  decide

/-- C5 amended: the registered exit callback always uses the 3-second
bound (the 1-second bound belongs to the Panic-level `Fire` call, not to
the exit callback); when shutdown has not been signalled before, it closes
`closing`, waits for `closed` or 3 seconds — never longer — and returns;
when a Panic-level submission already closed `closing`, the callback
panics on the double close instead of returning. -/
theorem exit_callback_waits_bounded :
    ∀ s, s.closing = false →
      UpstreamTCPBufferedHook.onExit s
        = ({ s with closing := true }, .returned tcpBufferedExitTimeoutMs)
      ∧ tcpBufferedExitTimeoutMs = 3000
      ∧ tcpBufferedPanicTimeoutMs = 1000
      ∧ (∀ closedAtMs, selectWaitMs tcpBufferedExitTimeoutMs closedAtMs
          ≤ 3000) := by
  intro s h
  refine ⟨?_, rfl, rfl, ?_⟩
  · unfold UpstreamTCPBufferedHook.onExit
    rw [if_neg (by simp [h])]
  · intro closedAtMs
    cases closedAtMs with
    | none => exact Nat.le_refl _
    | some c => exact Nat.min_le_right c 3000

/-- C5 amended witness: the exit callback on a fresh hook. -/
theorem exit_callback_waits_bounded_witness :
    UpstreamTCPBufferedHook.onExit BufferedHookState.new
      = ({ BufferedHookState.new with closing := true },
          .returned tcpBufferedExitTimeoutMs) :=
  (exit_callback_waits_bounded BufferedHookState.new rfl).1

/-- C6: every write the flush machinery performs is a newline-terminated
line of a submitted record; every write failure is immediately followed by
closing and discarding the connection and then a wait that ends with the
shutdown signal or with the retry-interval timer; while shutdown is never
signalled and writes keep failing the retry repeats indefinitely (the pass
never terminates, at any fuel); and a successfully formatted record never
surfaces an error to the caller of `Fire`. -/
theorem write_failure_handling :
    (∀ env logs fuel retry m m' cont tr,
      flushLogs env logs fuel retry m = some (m', cont, tr) →
      (∀ b ok, Ev.write b ok ∈ tr → ∃ l ∈ logs, b = l.line ++ "\n")
      ∧ WriteFailsHandled tr)
    ∧ (∀ env log rest fuel m,
        (∀ n, env.writeOk n = false) → (∀ t, env.closedAt t = false) →
        flushLogs env (log :: rest) fuel true m = none)
    ∧ (∀ s level data,
        (UpstreamTCPBufferedHook.Fire s level (.ok data)).outcome
          ≠ .formatError) := by
  refine ⟨?_, ?_, ?_⟩
  · intro env logs fuel retry m m' cont tr h
    obtain ⟨-, h2, h3⟩ := flushLogs_spec env logs fuel retry m m' cont tr h
    exact ⟨h2, h3⟩
  · intro env log rest fuel m hw hc
    exact flushLogs_open_failwrites env hw hc log rest fuel m
  · intro s level data
    simp only [UpstreamTCPBufferedHook.Fire]
    split_ifs <;> simp

/-- C6 witness: a concrete non-terminating run under permanent write
failure, plus the handled trace of a concrete successful run. -/
theorem write_failure_handling_witness :
    flushLogs envNeverDeliver [⟨.infoL, "a"⟩] 7 true M.start = none
    ∧ WriteFailsHandled [Ev.dial true, Ev.write "a\n" true]
    ∧ (UpstreamTCPBufferedHook.Fire BufferedHookState.new .debugL
        (.ok "d\n")).outcome ≠ .formatError :=
  ⟨write_failure_handling.2.1 envNeverDeliver ⟨.infoL, "a"⟩ [] 7 M.start
      (fun _ => rfl) (fun _ => rfl),
   (write_failure_handling.1 envAllOk [⟨.infoL, "a"⟩] 4 true M.start
      ⟨true, 1, 1, 0⟩ true [Ev.dial true, Ev.write "a\n" true]
      (by decide)).2,
   write_failure_handling.2.2 BufferedHookState.new .debugL "d\n"⟩

/-- The unbuffered hook's `Fire` never reports an error for a record the
formatter handled: connectivity problems stay off the caller's path. -/
theorem unbuffered_Fire_no_error (s : UnbufferedHookState) (data : String)
    (dOk wOk : Bool) :
    (UpstreamTCPUnbufferedHook.Fire s (.ok data) dOk wOk).2.2 = false := by
  simp only [UpstreamTCPUnbufferedHook.Fire]
  split_ifs with h
  · rfl
  · cases hs : s.send dOk wOk (trimSuffixNewline data) with
    | mk s1 tr => simp [hs]

/-- C7: a record submitted to the unbuffered hook reuses a live connection
(no dial); otherwise exactly one dial happens (bound by the fixed
1-second timeout); a failed dial drops the record without any write and
leaves the state unchanged; a failed write leaves the connection nil (to
be redialed next time); there is never more than one dial, never a
retry-interval sleep, and the caller never receives a connectivity
error. -/
theorem unbuffered_send_spec :
    ∀ s dialOk writeOk log,
      tcpUnbufferedTimeoutMs = 1000
      ∧ (s.upstream = true → (s.send dialOk writeOk log).2
          = if writeOk then [Ev.write (log ++ "\n") true]
            else [Ev.write (log ++ "\n") false, Ev.dropConn])
      ∧ (s.upstream = false → dialOk = true → (s.send dialOk writeOk log).2
          = if writeOk then [Ev.dial true, Ev.write (log ++ "\n") true]
            else [Ev.dial true, Ev.write (log ++ "\n") false, Ev.dropConn])
      ∧ (s.upstream = false → dialOk = false →
          s.send dialOk writeOk log = (s, [Ev.dial false]))
      ∧ dialCount (s.send dialOk writeOk log).2 ≤ 1
      ∧ waitRetryCount (s.send dialOk writeOk log).2 = 0
      ∧ (writeOk = false → ((s.send dialOk writeOk log).1).upstream = false)
      ∧ (∀ data, (UpstreamTCPUnbufferedHook.Fire s (.ok data) dialOk
          writeOk).2.2 = false) := by
  intro s dialOk writeOk log
  obtain ⟨u⟩ := s
  refine ⟨rfl, ?_, ?_, ?_, ?_, ?_, ?_, fun data =>
    unbuffered_Fire_no_error ⟨u⟩ data dialOk writeOk⟩ <;>
    cases u <;> cases dialOk <;> cases writeOk <;>
      simp [UnbufferedHookState.send, UnbufferedHookState.connect,
        dialCount, waitRetryCount]

/-- C7 witness: dial failure on a hook with no live connection — the
record is dropped after the single dial and the state is unchanged. -/
theorem unbuffered_send_spec_witness :
    UnbufferedHookState.send ⟨false⟩ false true "m" = (⟨false⟩, [Ev.dial false])
    ∧ dialCount (UnbufferedHookState.send ⟨false⟩ false true "m").2 ≤ 1
    ∧ (UpstreamTCPUnbufferedHook.Fire ⟨false⟩ (.ok "m") false true).2.2
        = false :=
  ⟨(unbuffered_send_spec ⟨false⟩ false true "m").2.2.2.1 rfl rfl,
   (unbuffered_send_spec ⟨false⟩ false true "m").2.2.2.2.1,
   (unbuffered_send_spec ⟨false⟩ false true "m").2.2.2.2.2.2.2 "m"⟩

/-- C8: endpoints the split accepts register the unbuffered hook exactly
when `isLocalhost` holds for the host, and the buffered hook otherwise;
and `isLocalhost` holds exactly for the empty host, the literal
`localhost`, and IP literals that parse as loopback addresses. -/
theorem endpoint_selection :
    ∀ net endpoint host port,
      net.splitHostPort endpoint = some (host, port) →
      (SetUpstreamEndpoint net endpoint = some .unbuffered
        ↔ isLocalhost net host = true)
      ∧ (SetUpstreamEndpoint net endpoint = some .buffered
        ↔ isLocalhost net host = false)
      ∧ (isLocalhost net host = true
        ↔ (host = "" ∨ host = "localhost"
            ∨ ∃ ip, net.parseIP host = some ip ∧ ip.isLoopback = true)) := by
  intro net endpoint host port hsplit
  have hset : SetUpstreamEndpoint net endpoint
      = some (if isLocalhost net host then HookKind.unbuffered
          else HookKind.buffered) := by
    unfold SetUpstreamEndpoint
    rw [hsplit]
  refine ⟨?_, ?_, ?_⟩
  · rw [hset]
    cases hloc : isLocalhost net host <;> simp
  · rw [hset]
    cases hloc : isLocalhost net host <;> simp
  · unfold isLocalhost
    by_cases h1 : host = ""
    · simp [h1]
    by_cases h2 : host = "localhost"
    · simp [h2]
    cases hp : net.parseIP host with
    | none => simp [h1, h2, hp]
    | some ip => simp [h1, h2, hp]

/-- C8 witness: `localhost:8125` selects the unbuffered hook under a stub
network API. -/
theorem endpoint_selection_witness :
    SetUpstreamEndpoint ⟨fun _ => some ("localhost", "8125"), fun _ => none⟩
      "localhost:8125" = some HookKind.unbuffered :=
  (endpoint_selection ⟨fun _ => some ("localhost", "8125"), fun _ => none⟩
    "localhost:8125" "localhost" "8125" rfl).1.mpr (by decide)

/-- C9: the shutdown signal is not idempotent: with `closing` already
closed, the exit callback panics on its `close`, and a further Panic-level
`Fire` panics on its `close`; concretely, firing a Panic record on a fresh
hook and then running the exit callback crashes. -/
theorem shutdown_signal_not_idempotent :
    ∀ s data, s.closing = true →
      ((UpstreamTCPBufferedHook.onExit s).2 = .panicked
      ∧ ((trimSuffixNewline data).length ≠ 0 →
          s.logChannel.length < s.chanCap →
          (UpstreamTCPBufferedHook.Fire s .panicL (.ok data)).outcome
            = .panicked))
      ∧ (UpstreamTCPBufferedHook.onExit
          (UpstreamTCPBufferedHook.Fire BufferedHookState.new .panicL
            (.ok "p")).state).2 = .panicked := by
  intro s data h
  refine ⟨⟨?_, ?_⟩, by decide⟩
  · unfold UpstreamTCPBufferedHook.onExit
    rw [if_pos h]
  · intro h1 h2
    rw [Fire_ok_panicLevel_closed s data h1 h2 h]

/-- C9 witness: both second triggers panic on a hook already closing. -/
theorem shutdown_signal_not_idempotent_witness :
    (UpstreamTCPBufferedHook.onExit ⟨[], logChannelCapacity, true⟩).2
      = .panicked
    ∧ (UpstreamTCPBufferedHook.Fire ⟨[], logChannelCapacity, true⟩ .panicL
        (.ok "p")).outcome = .panicked :=
  ⟨(shutdown_signal_not_idempotent ⟨[], logChannelCapacity, true⟩ "p"
      rfl).1.1,
   (shutdown_signal_not_idempotent ⟨[], logChannelCapacity, true⟩ "p"
      rfl).1.2 (by decide) (by decide)⟩

/-- C10: both hooks register exactly the six levels Panic…Debug; logrus
therefore never forwards Trace records to either hook; and a record whose
formatted line is empty (after trimming the trailing newline) is silently
discarded by both hooks with a `nil` return. -/
theorem levels_registration_and_empty_lines :
    UpstreamTCPBufferedHook.Levels
      = [.panicL, .fatalL, .errorL, .warnL, .infoL, .debugL]
    ∧ UpstreamTCPUnbufferedHook.Levels
      = [.panicL, .fatalL, .errorL, .warnL, .infoL, .debugL]
    ∧ logrusFiresHook UpstreamTCPBufferedHook.Levels .traceL = false
    ∧ logrusFiresHook UpstreamTCPUnbufferedHook.Levels .traceL = false
    ∧ (∀ s level data, (trimSuffixNewline data).length = 0 →
        UpstreamTCPBufferedHook.Fire s level (.ok data)
          = ⟨s, .discardedEmpty, none⟩)
    ∧ (∀ s data dOk wOk, (trimSuffixNewline data).length = 0 →
        UpstreamTCPUnbufferedHook.Fire s (.ok data) dOk wOk
          = (s, [], false)) := by
  refine ⟨rfl, rfl, by decide, by decide, ?_, ?_⟩
  · intro s level data h
    exact Fire_ok_empty s level data h
  · intro s data dOk wOk h
    simp only [UpstreamTCPUnbufferedHook.Fire]
    rw [if_pos h]

/-- C10 witness: an empty-after-trimming line is discarded by both hooks,
even at Panic level. -/
theorem levels_registration_and_empty_lines_witness :
    UpstreamTCPBufferedHook.Fire BufferedHookState.new .panicL (.ok "\n")
      = ⟨BufferedHookState.new, .discardedEmpty, none⟩
    ∧ UpstreamTCPUnbufferedHook.Fire ⟨false⟩ (.ok "") true true
      = (⟨false⟩, [], false) :=
  ⟨levels_registration_and_empty_lines.2.2.2.2.1 BufferedHookState.new
      .panicL "\n" (by decide),
   levels_registration_and_empty_lines.2.2.2.2.2 ⟨false⟩ "" true true
      (by decide)⟩

end Gotils
